import Mathlib

/-!
Verification of the Kalshi ingestion pipeline (`backend/ingestion_engine` and
`backend/common/db.py`): a shallow embedding of the rate limiter, the retrying
HTTP transport, the cursor-driven pagination loop, the batch accumulator, the
upsert sink and the start/stop lifecycle, together with theorems settling the
spec's claims about them.

Conventions of the embedding:
* Python `int`/`float` arithmetic on token counts is modelled over `ℚ`
  (floats are finite binary rationals; no claim here depends on rounding).
* Python functions that can raise are modelled in `Except PyErr`; a `try/except`
  becomes a `match` on the `Except` value.
* Wall-clock reads (`time.time()`, `now()`) become explicit parameters
  (`elapsed` seconds for the bucket, a `now : Nat` tag for SQL timestamps).
* The async transport is modelled by the sequence of outcomes the underlying
  `httpx` call would produce on each attempt.
-/

/-! ## Token bucket (`kalshi_http.py`, lines 29–57) -/

/-- State of `TokenBucket`: `capacity`, `refill_rate_per_second`, `tokens`.
`last_refill` is replaced by passing the elapsed time into each refill. -/
structure TokenBucket where
  capacity : ℚ
  refill_rate_per_second : ℚ
  tokens : ℚ
deriving Repr, DecidableEq

/-- `TokenBucket.__init__` (lines 32–36).  The body only assigns fields —
there is no parameter validation and no code path that raises — so in the
error monad it is unconditionally `ok`. -/
def TokenBucket.init (capacity : ℚ) (refill_rate_per_second : ℚ) :
    Except String TokenBucket :=
  Except.ok { capacity := capacity
              refill_rate_per_second := refill_rate_per_second
              tokens := capacity }

/-- `TokenBucket._refill` (lines 38–46): top tokens up by
`elapsed * refill_rate_per_second`, capped at `capacity`. -/
def TokenBucket.refill (b : TokenBucket) (elapsed : ℚ) : TokenBucket :=
  { b with tokens := min b.capacity (b.tokens + elapsed * b.refill_rate_per_second) }

/-- One iteration of the `while True` loop in `TokenBucket.acquire`
(lines 48–57): `_refill()`, then deduct and return `true` when
`self.tokens >= tokens`, else leave the state for the sleep-and-retry path. -/
def TokenBucket.acquireIter (b : TokenBucket) (n : ℚ) (elapsed : ℚ) :
    Bool × TokenBucket :=
  let b' := b.refill elapsed
  if n ≤ b'.tokens then (true, { b' with tokens := b'.tokens - n })
  else (false, b')

/-- Run the `acquire` loop for one iteration per entry of `elapsedSeq`
(the elapsed wall-clock time seen by each iteration's `_refill`), stopping
as soon as an iteration deducts.  Returns whether the acquire succeeded
within those iterations, and the final bucket state. -/
def TokenBucket.acquireAttempts (b : TokenBucket) (n : ℚ) :
    List ℚ → Bool × TokenBucket
  | [] => (false, b)
  | e :: es =>
      let r := b.acquireIter n e
      if r.1 then (true, r.2) else r.2.acquireAttempts n es

/-- An interleaved step on a bucket: a bare `_refill` or one `acquire`-loop
iteration requesting `n` tokens; each carries the elapsed time it observes. -/
inductive BucketStep where
  | refill (elapsed : ℚ)
  | acquire (n : ℚ) (elapsed : ℚ)
deriving Repr, DecidableEq

/-- Effect of one step on the bucket state. -/
def TokenBucket.step (b : TokenBucket) : BucketStep → TokenBucket
  | .refill e => b.refill e
  | .acquire n e => (b.acquireIter n e).2

/-- Run a sequence of interleaved refill/acquire steps. -/
def TokenBucket.run (b : TokenBucket) (steps : List BucketStep) : TokenBucket :=
  steps.foldl TokenBucket.step b

/-- A step is well-formed when its elapsed time is non-negative and (for an
acquire) the requested token count is non-negative. -/
def BucketStep.good : BucketStep → Prop
  | .refill e => 0 ≤ e
  | .acquire n e => 0 ≤ e ∧ 0 ≤ n

instance : DecidablePred BucketStep.good := by
  intro s
  cases s <;> simp [BucketStep.good] <;> infer_instance

/-! ## Retrying transport (`kalshi_http.py`, lines 85–146) -/

/-- Outcome of one underlying `httpx` request attempt, as seen by the
`try` block of `_request_with_retry`. -/
inductive Attempt where
  /-- `r.raise_for_status()` passed and `r.json()` parsed to `body`. -/
  | success (body : String)
  /-- `raise_for_status` raised `httpx.HTTPStatusError` with this status. -/
  | httpStatusError (status : Nat)
  /-- `httpx.ConnectError` / `httpx.TimeoutException` / `asyncio.TimeoutError`. -/
  | networkError
deriving Repr, DecidableEq

/-- Result of `_request_with_retry`. -/
inductive ReqResult where
  /-- `return r.json()` -/
  | body (b : String)
  /-- an exception propagated out of the loop (`raise`) -/
  | raised (a : Attempt)
  /-- the `for` loop never ran or was exhausted without `return`/`raise`:
  the function falls through and implicitly returns `None`. -/
  | noneFallthrough
deriving Repr, DecidableEq

/-- The statuses classified transient at line 123. -/
def transientStatuses : List Nat := [429, 502, 503, 504]

/-- The `for attempt in range(max_retries)` loop of `_request_with_retry`
(lines 111–146), from the current `attempt` index.  `transport i` is the
outcome of the `httpx` call on attempt `i`.  Returns the result and the
total number of attempts performed. -/
def requestAttempts (transport : Nat → Attempt) (max_retries : Nat)
    (attempt : Nat) : ReqResult × Nat :=
  if attempt < max_retries then
    match transport attempt with
    | .success b => (.body b, attempt + 1)
    | .httpStatusError s =>
        if s ∈ transientStatuses ∧ attempt < max_retries - 1 then
          requestAttempts transport max_retries (attempt + 1)
        else
          (.raised (.httpStatusError s), attempt + 1)
    | .networkError =>
        if attempt < max_retries - 1 then
          requestAttempts transport max_retries (attempt + 1)
        else
          (.raised .networkError, attempt + 1)
  else
    (.noneFallthrough, attempt)
termination_by max_retries - attempt
decreasing_by all_goals omega

/-- Trace of one `_request_with_retry` call: how many rate-limiter tokens it
acquired, how many HTTP attempts it made, and its result. -/
structure ReqTrace where
  tokensAcquired : Nat
  attemptsMade : Nat
  result : ReqResult
deriving Repr, DecidableEq

/-- `KalshiHttpClient._request_with_retry` (lines 85–146): one
`rate_limiter.acquire(1)` (line 109) followed by the retry loop. -/
def requestWithRetry (transport : Nat → Attempt) (max_retries : Nat := 3) :
    ReqTrace :=
  let r := requestAttempts transport max_retries 0
  { tokensAcquired := 1, attemptsMade := r.2, result := r.1 }

/-! ## Cursor-driven pagination (`auto_ingest.py` lines 54–75,
`kalshi_http.py` lines 148–172) -/

/-- Python truthiness of an `Optional[str]`: `None` and `""` are falsy.
Used both by `if cursor:` in `get_markets` and `if not cursor: break`
in the polling loop. -/
def truthyStr : Option String → Bool
  | Option.none => false
  | some s => s ≠ ""

/-- Query-parameter assembly of `KalshiHttpClient.get_markets`
(lines 166–171): `cursor` and `min_created_ts` are added only when truthy. -/
def get_markets_params (limit : Nat) (cursor : Option String)
    (mve_filter : String) (min_created_ts : Option String) :
    List (String × String) :=
  let params := [("limit", toString limit), ("mve_filter", mve_filter)]
  let params := if truthyStr cursor then params ++ [("cursor", cursor.getD "")]
                else params
  if truthyStr min_created_ts then
    params ++ [("min_created_ts", min_created_ts.getD "")]
  else params

/-- One page of a paginated response: the record array (`res.get("markets")
or []`, already defaulted to `[]`) and the next cursor (`res.get("cursor")`). -/
structure Page (R : Type) where
  records : List R
  cursor : Option String
deriving Repr, DecidableEq

/-- The market-polling loop of `_poll_markets_and_events` (lines 54–75),
with the server modelled as the list of pages it returns to the successive
requests.  `cursor` is the cursor argument of the next request (initially
`None`, line 54).  Returns the accumulated records and the sequence of
cursor arguments passed to `get_markets`.  The `[]` case is the (unspecified)
situation where the server's prepared responses run out while the loop still
wants another page; it is unreachable in the theorems below. -/
def pollPages {R : Type} : Option String → List (Page R) →
    List R × List (Option String)
  | _, [] => ([], [])
  | cursor, p :: rest =>
      if truthyStr p.cursor then
        let r := pollPages p.cursor rest
        (p.records ++ r.1, cursor :: r.2)
      else
        (p.records, [cursor])

/-! ## Batch accumulator (`auto_ingest.py` lines 49–80) -/

/-- Accumulator state: the in-memory buffer (`markets_batch`) and the
batches flushed to the sink so far (in order). -/
structure Accum (R : Type) where
  buf : List R
  flushes : List (List R)
deriving Repr, DecidableEq

/-- One accumulation step (lines 62–70): extend the buffer with the incoming
records, then flush the whole buffer and clear it when
`len(markets_batch) >= batch_size`. -/
def accumPush {R : Type} (batch_size : Nat) (st : Accum R) (page : List R) :
    Accum R :=
  if batch_size ≤ (st.buf ++ page).length then
    { buf := [], flushes := st.flushes ++ [st.buf ++ page] }
  else { buf := st.buf ++ page, flushes := st.flushes }

/-- Run the accumulator from empty over a list of incoming record groups. -/
def accumRun {R : Type} (batch_size : Nat) (pages : List (List R)) : Accum R :=
  pages.foldl (accumPush batch_size) { buf := [], flushes := [] }

/-- The final drain (lines 78–80): `if markets_batch:` flush what remains;
an empty buffer is left alone. -/
def accumDrain {R : Type} (st : Accum R) : Accum R :=
  if st.buf.isEmpty then st else { buf := [], flushes := st.flushes ++ [st.buf] }

/-! ## Lifecycle supervisor (`auto_ingest.py` lines 119–162) -/

/-- The supervisor world: `task` is the module-global `_INGEST_TASK` handle
(`some id` when a handle is stored), `running` the ids of spawned polling
tasks that have not yet finished or been cancelled (so `t ∈ running ↔ not
t.done()`), `nextId` a fresh-id source for `asyncio.create_task`. -/
structure SupWorld where
  task : Option Nat
  running : List Nat
  nextId : Nat
deriving Repr, DecidableEq

/-- Module state at import: `_INGEST_TASK = None`, no task spawned. -/
def SupWorld.init : SupWorld := { task := Option.none, running := [], nextId := 0 }

/-- `start_ingestion` (lines 119–150): `if _INGEST_TASK and not
_INGEST_TASK.done(): return`; otherwise `asyncio.create_task(...)` spawns a
fresh polling task and stores its handle. -/
def startIngestion (w : SupWorld) : SupWorld :=
  match w.task with
  | some t =>
      if t ∈ w.running then w
      else { task := some w.nextId, running := w.running ++ [w.nextId],
             nextId := w.nextId + 1 }
  | Option.none =>
      { task := some w.nextId, running := w.running ++ [w.nextId],
        nextId := w.nextId + 1 }

/-- `stop_ingestion` (lines 153–162): `if _INGEST_TASK:` cancel it, await its
termination (after which it is no longer running), and set `_INGEST_TASK =
None`; with no handle it is a no-op. -/
def stopIngestion (w : SupWorld) : SupWorld :=
  match w.task with
  | some t => { task := Option.none, running := w.running.erase t,
                nextId := w.nextId }
  | Option.none => w

/-- Events the world can undergo: the two lifecycle calls, and a running
polling task finishing on its own (e.g. the early `return` on
`create_tables` failure, lines 42–45). -/
inductive SupStep where
  | start
  | stop
  | finish (t : Nat)
deriving Repr, DecidableEq

/-- Effect of one event. -/
def SupWorld.step (w : SupWorld) : SupStep → SupWorld
  | .start => startIngestion w
  | .stop => stopIngestion w
  | .finish t => { w with running := w.running.erase t }

/-- Run a sequence of lifecycle events from module-import state. -/
def SupWorld.run (steps : List SupStep) : SupWorld :=
  steps.foldl SupWorld.step SupWorld.init

/-- Reachability invariant: any running task is the one the handle points to. -/
def SupWorld.inv (w : SupWorld) : Prop :=
  match w.task with
  | Option.none => w.running = []
  | some t => w.running = [] ∨ w.running = [t]

/-! ## Python values and builtins (conversion layer of `db.py`, lines 34–92) -/

/-- Exceptions the modelled Python builtins can raise. -/
inductive PyErr where
  | typeError
  | valueError
  | invalidOperation
  | overflowError
deriving Repr, DecidableEq

/-- `datetime` objects as this code can observe them: produced either by
`datetime.fromtimestamp` on epoch seconds or by `datetime.fromisoformat`
(calendar fields, fractional second, optional UTC offset in minutes). -/
inductive PyDateTime where
  | fromTimestamp (secs : ℚ)
  | isoDate (year month day hour minute second : Nat) (frac : ℚ)
      (tzMinutes : Option Int)
deriving Repr, DecidableEq

/-- `decimal.Decimal` values: besides finite numbers the constructor accepts
the special strings `NaN` and `Infinity`. -/
inductive PyDec where
  | num (q : ℚ)
  | nan
  | inf (neg : Bool)
deriving Repr, DecidableEq

mutual
/-- Python values as the ingestion pipeline can observe them.  Floats are
modelled as rationals (Python floats are finite binary rationals; no claim
settled here depends on binary rounding). -/
inductive PyVal where
  | none
  | bool (b : Bool)
  | int (n : Int)
  | float (q : ℚ)
  | str (s : String)
  | datetime (d : PyDateTime)
  | list (xs : PyList)
  | dict (kvs : PyDict)
deriving DecidableEq

/-- A Python list of `PyVal`s (spelled out so equality is decidable). -/
inductive PyList where
  | nil
  | cons (hd : PyVal) (tl : PyList)
deriving DecidableEq

/-- A Python dict with string keys (the shape `r.json()` produces). -/
inductive PyDict where
  | nil
  | cons (k : String) (v : PyVal) (tl : PyDict)
deriving DecidableEq
end

/-- Whether a `PyList` is empty. -/
def PyList.isNil : PyList → Bool
  | .nil => true
  | .cons _ _ => false

/-- Whether a `PyDict` is empty. -/
def PyDict.isNil : PyDict → Bool
  | .nil => true
  | .cons _ _ _ => false

/-- `raw.get(key)`: the value stored under `key`, or Python `None` when the
key is absent (the `dict.get` default). -/
def PyDict.get : PyDict → String → PyVal
  | .nil, _ => PyVal.none
  | .cons k v tl, key => if k = key then v else tl.get key

/-- Python truthiness (`if not ticker:` etc.). -/
def PyVal.truthy : PyVal → Bool
  | PyVal.none => false
  | .bool b => b
  | .int n => decide (n ≠ 0)
  | .float q => decide (q ≠ 0)
  | .str s => decide (s ≠ "")
  | .datetime _ => true
  | .list xs => !xs.isNil
  | .dict kvs => !kvs.isNil

/-- Value of a run of ASCII digits (most significant first). -/
def digitsValAux : List Char → Nat → Nat
  | [], acc => acc
  | c :: cs, acc => digitsValAux cs (acc * 10 + (c.toNat - 48))

/-- Value of a run of ASCII digits. -/
def digitsVal (cs : List Char) : Nat := digitsValAux cs 0

/-- `int(str)`: optional sign followed by a non-empty run of digits
(surrounding whitespace is stripped by the caller). -/
def intOfChars : List Char → Option Int
  | [] => Option.none
  | '+' :: cs =>
      if cs ≠ [] ∧ cs.all Char.isDigit then some (digitsVal cs) else Option.none
  | '-' :: cs =>
      if cs ≠ [] ∧ cs.all Char.isDigit then some (-(digitsVal cs : Int))
      else Option.none
  | cs => if cs.all Char.isDigit then some (digitsVal cs) else Option.none

/-- Strip leading and trailing whitespace (Python `str.strip`). -/
def trimChars (cs : List Char) : List Char :=
  ((cs.dropWhile Char.isWhitespace).reverse.dropWhile Char.isWhitespace).reverse

/-- `int(str)` on a string, Python semantics (strip whitespace first). -/
def intOfString (s : String) : Option Int := intOfChars (trimChars s.data)

/-- Optional exponent suffix `e`/`E` with signed digits; `[]` means
exponent 0. -/
def parseExp : List Char → Option Int
  | [] => some 0
  | c :: cs => if c = 'e' ∨ c = 'E' then intOfChars cs else Option.none

/-- Unsigned decimal mantissa `digits[.digits]` (at least one digit),
returning its value and the unconsumed suffix. -/
def parseMantissa (cs : List Char) : Option (ℚ × List Char) :=
  let ip := cs.takeWhile Char.isDigit
  let rest := cs.dropWhile Char.isDigit
  match rest with
  | '.' :: rest2 =>
      let fp := rest2.takeWhile Char.isDigit
      let rest3 := rest2.dropWhile Char.isDigit
      if ip.isEmpty ∧ fp.isEmpty then Option.none
      else
        some ((digitsVal ip : ℚ) +
          (digitsVal fp : ℚ) / ((10 ^ fp.length : Nat) : ℚ), rest3)
  | _ => if ip.isEmpty then Option.none else some ((digitsVal ip : ℚ), rest)

/-- Scale a mantissa by a signed power of ten. -/
def applyExp (m : ℚ) (e : Int) : ℚ :=
  if 0 ≤ e then m * ((10 ^ e.toNat : Nat) : ℚ)
  else m / ((10 ^ (-e).toNat : Nat) : ℚ)

/-- Unsigned float literal: mantissa and optional exponent. -/
def floatOfCharsUnsigned (cs : List Char) : Option ℚ :=
  match parseMantissa cs with
  | some (m, rest) =>
      match parseExp rest with
      | some e => some (applyExp m e)
      | Option.none => Option.none
  | Option.none => Option.none

/-- Signed float literal. -/
def floatOfChars : List Char → Option ℚ
  | '+' :: cs => floatOfCharsUnsigned cs
  | '-' :: cs => (floatOfCharsUnsigned cs).map Neg.neg
  | cs => floatOfCharsUnsigned cs

/-- `float(str)`.  The `inf`/`nan` spellings are rejected here; Python parses
them to non-finite floats, but the repo's only use is `int(float(v))`,
where a non-finite float raises — the same observable `None`. -/
def floatOfString (s : String) : Option ℚ := floatOfChars (trimChars s.data)

/-- ASCII lowercasing of one character. -/
def lowerChar (c : Char) : Char :=
  if 'A' ≤ c ∧ c ≤ 'Z' then Char.ofNat (c.toNat + 32) else c

/-- `Decimal(str)`: whitespace stripped, special values recognized
case-insensitively, otherwise the float grammar. -/
def decimalOfString (s : String) : Option PyDec :=
  let t := trimChars s.data
  let l := t.map lowerChar
  if l = "nan".data ∨ l = "-nan".data ∨ l = "+nan".data ∨ l = "snan".data ∨
     l = "-snan".data ∨ l = "+snan".data then some PyDec.nan
  else if l = "inf".data ∨ l = "+inf".data ∨ l = "infinity".data ∨
     l = "+infinity".data then some (PyDec.inf false)
  else if l = "-inf".data ∨ l = "-infinity".data then some (PyDec.inf true)
  else (floatOfChars t).map PyDec.num

/-- Smallest number of decimal fraction digits that represents `1/d`
exactly, when one exists below the float range. -/
def decExpSearch (d : Nat) : Option Nat :=
  (List.range 1101).find? (fun k => 10 ^ k % d = 0)

/-- `s / 10^k` printed as a decimal string. -/
def natDecString (s k : Nat) : String :=
  if k = 0 then toString s
  else
    let ip := s / 10 ^ k
    let fp := s % 10 ^ k
    let fs := toString fp
    toString ip ++ "." ++ String.mk (List.replicate (k - fs.length) '0') ++ fs

/-- `str(float)`: the exact decimal expansion when the denominator divides a
power of ten (every actual Python float does); otherwise a fraction marker
no numeric parser accepts. -/
def floatRepr (q : ℚ) : String :=
  let sign := if q < 0 then "-" else ""
  match decExpSearch q.den with
  | some k => sign ++ natDecString (q.num.natAbs * (10 ^ k / q.den)) k
  | Option.none => sign ++ toString q.num.natAbs ++ "/" ++ toString q.den

/-- Two-digit zero padding for datetime printing. -/
def pad2 (n : Nat) : String := if n < 10 then "0" ++ toString n else toString n

/-- `str(datetime)`, to the precision the repo's code can observe (its only
consumer is `Decimal(str(v))`, which fails on every such string). -/
def PyDateTime.pyStr : PyDateTime → String
  | .fromTimestamp s =>
      "datetime.fromtimestamp(" ++ toString s.num ++ "/" ++ toString s.den ++ ")"
  | .isoDate y m d h mi s _ _ =>
      toString y ++ "-" ++ pad2 m ++ "-" ++ pad2 d ++ " " ++ pad2 h ++ ":" ++
        pad2 mi ++ ":" ++ pad2 s

mutual
/-- Python `str(v)`. -/
def PyVal.pyStr : PyVal → String
  | PyVal.none => "None"
  | .bool b => if b then "True" else "False"
  | .int n => toString n
  | .float q => floatRepr q
  | .str s => s
  | .datetime d => d.pyStr
  | .list xs => "[" ++ xs.reprItems ++ "]"
  | .dict kvs => "\x7b" ++ kvs.reprItems ++ "\x7d"

/-- Comma-separated `repr`s of list elements (containers print their
elements with `repr`, which quotes strings). -/
def PyList.reprItems : PyList → String
  | .nil => ""
  | .cons v tl =>
      (match v with
       | PyVal.str s => "'" ++ s ++ "'"
       | v => v.pyStr) ++
      (match tl with
       | .nil => ""
       | tl => ", " ++ tl.reprItems)

/-- Comma-separated `'key': repr(value)` pairs. -/
def PyDict.reprItems : PyDict → String
  | .nil => ""
  | .cons k v tl =>
      "'" ++ k ++ "': " ++
      (match v with
       | PyVal.str s => "'" ++ s ++ "'"
       | v => v.pyStr) ++
      (match tl with
       | .nil => ""
       | tl => ", " ++ tl.reprItems)
end

/-- Python `repr(v)`. -/
def PyVal.pyRepr : PyVal → String
  | PyVal.str s => "'" ++ s ++ "'"
  | v => v.pyStr

mutual
/-- `json.dumps(v)`.  On a `datetime` the real `json.dumps` raises
`TypeError`; records reaching this sink come from parsed JSON and cannot
contain datetimes, so the embedding prints a tagged marker instead of
modelling that failure path. -/
def PyVal.jsonDumps : PyVal → String
  | PyVal.none => "null"
  | .bool b => if b then "true" else "false"
  | .int n => toString n
  | .float q => floatRepr q
  | .str s => "\"" ++ s ++ "\""
  | .datetime d => "<unserializable " ++ d.pyStr ++ ">"
  | .list xs => "[" ++ xs.jsonItems ++ "]"
  | .dict kvs => "\x7b" ++ kvs.jsonItems ++ "\x7d"

/-- Comma-separated JSON dumps of list elements. -/
def PyList.jsonItems : PyList → String
  | .nil => ""
  | .cons v tl =>
      v.jsonDumps ++
      (match tl with
       | .nil => ""
       | tl => ", " ++ tl.jsonItems)

/-- Comma-separated JSON `"key": value` pairs. -/
def PyDict.jsonItems : PyDict → String
  | .nil => ""
  | .cons k v tl =>
      "\"" ++ k ++ "\": " ++ v.jsonDumps ++
      (match tl with
       | .nil => ""
       | tl => ", " ++ tl.jsonItems)
end

/-- Truncation toward zero: Python `int()` applied to a float. -/
def ratTrunc (q : ℚ) : Int := Int.tdiv q.num (q.den : Int)

/-- The builtin `int(v)`. -/
def pyIntB (v : PyVal) : Except PyErr Int :=
  match v with
  | .bool b => Except.ok (if b then 1 else 0)
  | .int n => Except.ok n
  | .float q => Except.ok (ratTrunc q)
  | .str s =>
      match intOfString s with
      | some n => Except.ok n
      | Option.none => Except.error .valueError
  | _ => Except.error .typeError

/-- The builtin `float(v)`. -/
def pyFloatB (v : PyVal) : Except PyErr ℚ :=
  match v with
  | .bool b => Except.ok (if b then 1 else 0)
  | .int n => Except.ok (n : ℚ)
  | .float q => Except.ok q
  | .str s =>
      match floatOfString s with
      | some q => Except.ok q
      | Option.none => Except.error .valueError
  | _ => Except.error .typeError

/-- The constructor `Decimal(s)`. -/
def pyDecimalB (s : String) : Except PyErr PyDec :=
  match decimalOfString s with
  | some d => Except.ok d
  | Option.none => Except.error .invalidOperation

/-- Lower UTC bound of the `datetime` range (year 1). -/
def minEpoch : ℚ := -62135596800

/-- Upper UTC bound of the `datetime` range (year 9999). -/
def maxEpoch : ℚ := 253402300799

/-- `datetime.fromtimestamp(v)`: raises for epoch values outside the
representable calendar range. -/
def datetime_fromtimestamp (q : ℚ) : Except PyErr PyDateTime :=
  if q < minEpoch ∨ maxEpoch < q then Except.error .overflowError
  else Except.ok (.fromTimestamp q)

/-- Exactly `k` digits, returning their value and the rest. -/
def parseFixed (cs : List Char) (k : Nat) : Option (Nat × List Char) :=
  let pre := cs.take k
  if pre.length = k ∧ pre.all Char.isDigit then some (digitsVal pre, cs.drop k)
  else Option.none

/-- Days in a month, Gregorian rules. -/
def daysInMonth (y m : Nat) : Nat :=
  if m = 2 then
    if y % 4 = 0 ∧ (y % 100 ≠ 0 ∨ y % 400 = 0) then 29 else 28
  else if m = 4 ∨ m = 6 ∨ m = 9 ∨ m = 11 then 30
  else 31

/-- Optional `±HH:MM` UTC offset terminating the string. -/
def parseTzOff : List Char → Option (Option Int)
  | [] => some Option.none
  | c :: cs =>
      if c = '+' ∨ c = '-' then
        match parseFixed cs 2 with
        | some (hh, r1) =>
            match r1 with
            | ':' :: r2 =>
                match parseFixed r2 2 with
                | some (mm, r3) =>
                    if r3.isEmpty ∧ hh < 24 ∧ mm < 60 then
                      some (some ((if c = '-' then -1 else 1) *
                        ((hh * 60 + mm : Nat) : Int)))
                    else Option.none
                | Option.none => Option.none
            | _ => Option.none
        | Option.none => Option.none
      else Option.none

/-- Optional `.digits` fractional second. -/
def parseFrac : List Char → ℚ × List Char
  | '.' :: rest =>
      let ds := rest.takeWhile Char.isDigit
      let r := rest.dropWhile Char.isDigit
      if ds.isEmpty then (0, '.' :: rest)
      else ((digitsVal ds : ℚ) / 10 ^ ds.length, r)
  | cs => (0, cs)

/-- Optional time-of-day part `[T| ]HH:MM[:SS[.ffffff]][±HH:MM]`. -/
def parseTimePart : List Char → Option (Nat × Nat × Nat × ℚ × Option Int)
  | [] => some (0, 0, 0, 0, Option.none)
  | c :: cs =>
      if c = 'T' ∨ c = ' ' then
        match parseFixed cs 2 with
        | some (hh, r1) =>
            match r1 with
            | ':' :: r2 =>
                match parseFixed r2 2 with
                | some (mi, r3) =>
                    match r3 with
                    | ':' :: r4 =>
                        match parseFixed r4 2 with
                        | some (ss, r5) =>
                            let fr := parseFrac r5
                            match parseTzOff fr.2 with
                            | some tz => some (hh, mi, ss, fr.1, tz)
                            | Option.none => Option.none
                        | Option.none => Option.none
                    | _ =>
                        match parseTzOff r3 with
                        | some tz => some (hh, mi, 0, 0, tz)
                        | Option.none => Option.none
                | Option.none => Option.none
            | _ => Option.none
        | Option.none => Option.none
      else Option.none

/-- `datetime.fromisoformat` on `YYYY-MM-DD[<sep>HH:MM[:SS[.ffffff]]][±HH:MM]`
with calendar validation. -/
def datetime_fromisoformat (cs : List Char) : Except PyErr PyDateTime :=
  match parseFixed cs 4 with
  | some (y, r1) =>
      match r1 with
      | '-' :: r2 =>
          match parseFixed r2 2 with
          | some (m, r3) =>
              match r3 with
              | '-' :: r4 =>
                  match parseFixed r4 2 with
                  | some (d, r5) =>
                      match parseTimePart r5 with
                      | some (hh, mi, ss, fr, tz) =>
                          if 1 ≤ y ∧ y ≤ 9999 ∧ 1 ≤ m ∧ m ≤ 12 ∧ 1 ≤ d ∧
                             d ≤ daysInMonth y m ∧ hh < 24 ∧ mi < 60 ∧ ss < 60
                          then Except.ok (PyDateTime.isoDate y m d hh mi ss fr tz)
                          else Except.error .valueError
                      | Option.none => Except.error .valueError
                  | Option.none => Except.error .valueError
              | _ => Except.error .valueError
          | Option.none => Except.error .valueError
      | _ => Except.error .valueError
  | Option.none => Except.error .valueError

/-- The `if s.endswith("Z"): s = s[:-1] + "+00:00"` fix-up in `_as_datetime`
(db.py lines 83–86), on character lists. -/
def zFixChars (cs : List Char) : List Char :=
  if cs.getLast? = some 'Z' then cs.dropLast ++ ['+', '0', '0', ':', '0', '0']
  else cs

/-- `_as_int` (db.py lines 47–56): `None → None`; `try int(v)`; on failure
`try int(float(v))`; on failure `None`.  Stated in the error monad: the
`try/except` nesting makes every branch `ok`. -/
def _as_int_E (v : PyVal) : Except PyErr (Option Int) :=
  match v with
  | PyVal.none => Except.ok Option.none
  | v =>
      match pyIntB v with
      | Except.ok n => Except.ok (some n)
      | Except.error _ =>
          match pyFloatB v with
          | Except.ok q => Except.ok (some (ratTrunc q))
          | Except.error _ => Except.ok Option.none

/-- The value `_as_int` actually produces. -/
def _as_int (v : PyVal) : Option Int :=
  match _as_int_E v with
  | Except.ok o => o
  | Except.error _ => Option.none

/-- `_as_decimal` (db.py lines 59–65): `None → None`; `try
Decimal(str(v))`; on failure `None`. -/
def _as_decimal_E (v : PyVal) : Except PyErr (Option PyDec) :=
  match v with
  | PyVal.none => Except.ok Option.none
  | v =>
      match pyDecimalB (PyVal.pyStr v) with
      | Except.ok d => Except.ok (some d)
      | Except.error _ => Except.ok Option.none

/-- The value `_as_decimal` actually produces. -/
def _as_decimal (v : PyVal) : Option PyDec :=
  match _as_decimal_E v with
  | Except.ok o => o
  | Except.error _ => Option.none

/-- `_as_datetime` (db.py lines 68–92): `None → None`; numbers (including
`bool`, an `int` subclass) through `fromtimestamp` guarded by
`try/except`; datetime objects (`hasattr(v, "tzinfo")`) pass through;
anything else is `str`-ed, `Z`-fixed and given to `fromisoformat` under
`try/except`. -/
def _as_datetime_E (v : PyVal) : Except PyErr (Option PyDateTime) :=
  match v with
  | PyVal.none => Except.ok Option.none
  | PyVal.bool b =>
      match datetime_fromtimestamp (if b then 1 else 0) with
      | Except.ok d => Except.ok (some d)
      | Except.error _ => Except.ok Option.none
  | PyVal.int n =>
      match datetime_fromtimestamp (n : ℚ) with
      | Except.ok d => Except.ok (some d)
      | Except.error _ => Except.ok Option.none
  | PyVal.float q =>
      match datetime_fromtimestamp q with
      | Except.ok d => Except.ok (some d)
      | Except.error _ => Except.ok Option.none
  | PyVal.datetime d => Except.ok (some d)
  | v =>
      match datetime_fromisoformat (zFixChars (PyVal.pyStr v).toList) with
      | Except.ok d => Except.ok (some d)
      | Except.error _ => Except.ok Option.none

/-- The value `_as_datetime` actually produces. -/
def _as_datetime (v : PyVal) : Option PyDateTime :=
  match _as_datetime_E v with
  | Except.ok o => o
  | Except.error _ => Option.none

/-- `_serialize_jsonb` (db.py lines 34–44): `None` stays `None`, strings
pass through unchanged (already JSON-encoded), everything else is
JSON-encoded exactly once. -/
def _serialize_jsonb (v : PyVal) : PyVal :=
  match v with
  | PyVal.none => PyVal.none
  | PyVal.str s => PyVal.str s
  | v => PyVal.str (PyVal.jsonDumps v)

/-- Decidable equality for `Except` results, used to evaluate the
conversion functions on concrete inputs. -/
instance exceptDecEq {e a : Type} [DecidableEq e] [DecidableEq a] :
    DecidableEq (Except e a)
  | Except.ok x, Except.ok y =>
      if h : x = y then isTrue (by rw [h])
      else isFalse (by intro hc; cases hc; exact h rfl)
  | Except.ok _, Except.error _ => isFalse (by intro hc; cases hc)
  | Except.error _, Except.ok _ => isFalse (by intro hc; cases hc)
  | Except.error x, Except.error y =>
      if h : x = y then isTrue (by rw [h])
      else isFalse (by intro hc; cases hc; exact h rfl)


/-! ## Typed rows and the upsert sink (`db.py` lines 349–584) -/

/-- A typed column value: either the raw Python value stored as given, or
the result of one of the three conversion functions. -/
inductive Col where
  | pv (v : PyVal)
  | iv (n : Option Int)
  | dec (d : Option PyDec)
  | dt (t : Option PyDateTime)
deriving DecidableEq

/-- `_as_int(raw.get(k))` as a column. -/
def colInt (v : PyVal) : Col := Col.iv (_as_int v)

/-- `_as_decimal(raw.get(k))` as a column. -/
def colDec (v : PyVal) : Col := Col.dec (_as_decimal v)

/-- `_as_datetime(raw.get(k))` as a column. -/
def colDt (v : PyVal) : Col := Col.dt (_as_datetime v)

/-- The `rec` dict built per market record in `batch_upsert_markets`
(db.py lines 387–449), in column order. -/
def projectMarket (raw : PyDict) : List (String × Col) :=
  [("ticker", Col.pv (raw.get "ticker")),
   ("event_ticker", Col.pv (raw.get "event_ticker")),
   ("market_type", Col.pv (raw.get "market_type")),
   ("title", Col.pv (raw.get "title")),
   ("subtitle", Col.pv (raw.get "subtitle")),
   ("yes_sub_title", Col.pv (raw.get "yes_sub_title")),
   ("no_sub_title", Col.pv (raw.get "no_sub_title")),
   ("created_time", colDt (raw.get "created_time")),
   ("open_time", colDt (raw.get "open_time")),
   ("close_time", colDt (raw.get "close_time")),
   ("expiration_time", colDt (raw.get "expiration_time")),
   ("latest_expiration_time", colDt (raw.get "latest_expiration_time")),
   ("expected_expiration_time", colDt (raw.get "expected_expiration_time")),
   ("settlement_timer_seconds", colInt (raw.get "settlement_timer_seconds")),
   ("status", Col.pv (raw.get "status")),
   ("response_price_units", Col.pv (raw.get "response_price_units")),
   ("yes_bid", colInt (raw.get "yes_bid")),
   ("yes_bid_dollars", colDec (raw.get "yes_bid_dollars")),
   ("yes_ask", colInt (raw.get "yes_ask")),
   ("yes_ask_dollars", colDec (raw.get "yes_ask_dollars")),
   ("no_bid", colInt (raw.get "no_bid")),
   ("no_bid_dollars", colDec (raw.get "no_bid_dollars")),
   ("no_ask", colInt (raw.get "no_ask")),
   ("no_ask_dollars", colDec (raw.get "no_ask_dollars")),
   ("last_price", colInt (raw.get "last_price")),
   ("last_price_dollars", colDec (raw.get "last_price_dollars")),
   ("volume", colInt (raw.get "volume")),
   ("volume_24h", colInt (raw.get "volume_24h")),
   ("result", Col.pv (raw.get "result")),
   ("can_close_early", Col.pv (raw.get "can_close_early")),
   ("open_interest", colInt (raw.get "open_interest")),
   ("notional_value", colInt (raw.get "notional_value")),
   ("notional_value_dollars", colDec (raw.get "notional_value_dollars")),
   ("previous_yes_bid", colInt (raw.get "previous_yes_bid")),
   ("previous_yes_bid_dollars", colDec (raw.get "previous_yes_bid_dollars")),
   ("previous_yes_ask", colInt (raw.get "previous_yes_ask")),
   ("previous_yes_ask_dollars", colDec (raw.get "previous_yes_ask_dollars")),
   ("previous_price", colInt (raw.get "previous_price")),
   ("previous_price_dollars", colDec (raw.get "previous_price_dollars")),
   ("liquidity", colInt (raw.get "liquidity")),
   ("liquidity_dollars", colDec (raw.get "liquidity_dollars")),
   ("expiration_value", Col.pv (raw.get "expiration_value")),
   ("category", Col.pv (raw.get "category")),
   ("risk_limit_cents", colInt (raw.get "risk_limit_cents")),
   ("tick_size", colInt (raw.get "tick_size")),
   ("rules_primary", Col.pv (raw.get "rules_primary")),
   ("rules_secondary", Col.pv (raw.get "rules_secondary")),
   ("price_level_structure", Col.pv (raw.get "price_level_structure")),
   ("price_ranges", Col.pv (raw.get "price_ranges")),
   ("settlement_value", colInt (raw.get "settlement_value")),
   ("settlement_value_dollars", colDec (raw.get "settlement_value_dollars")),
   ("fee_waiver_expiration_time", colDt (raw.get "fee_waiver_expiration_time")),
   ("early_close_condition", Col.pv (raw.get "early_close_condition")),
   ("strike_type", Col.pv (raw.get "strike_type")),
   ("floor_strike", colDec (raw.get "floor_strike")),
   ("cap_strike", colDec (raw.get "cap_strike")),
   ("functional_strike", Col.pv (raw.get "functional_strike")),
   ("custom_strike", Col.pv (raw.get "custom_strike")),
   ("mve_collection_ticker", Col.pv (raw.get "mve_collection_ticker")),
   ("mve_selected_legs", Col.pv (raw.get "mve_selected_legs")),
   ("primary_participant_key", Col.pv (raw.get "primary_participant_key"))]

/-- The `rec` dict built per event record in `batch_upsert_events`
(db.py lines 526–539). -/
def projectEvent (raw : PyDict) : List (String × Col) :=
  [("event_ticker", Col.pv (raw.get "event_ticker")),
   ("series_ticker", Col.pv (raw.get "series_ticker")),
   ("sub_title", Col.pv (raw.get "sub_title")),
   ("title", Col.pv (raw.get "title")),
   ("collateral_return_type", Col.pv (raw.get "collateral_return_type")),
   ("mutually_exclusive", Col.pv (raw.get "mutually_exclusive")),
   ("category", Col.pv (raw.get "category")),
   ("available_on_brokers", Col.pv (raw.get "available_on_brokers")),
   ("product_metadata", Col.pv (raw.get "product_metadata")),
   ("strike_date", colDt (raw.get "strike_date")),
   ("strike_period", Col.pv (raw.get "strike_period")),
   ("milestones", Col.pv (raw.get "milestones"))]

/-- `jsonb_cols` of `batch_upsert_markets` (db.py line 461). -/
def marketJsonbCols : List String :=
  ["price_ranges", "custom_strike", "mve_selected_legs"]

/-- `jsonb_cols` of `batch_upsert_events` (db.py line 551). -/
def eventJsonbCols : List String := ["product_metadata", "milestones"]

/-- The per-record value assembly before `conn.execute` (db.py lines
488–495 / 574–581): JSONB columns are `_serialize_jsonb`-encoded once
(`_serialize_jsonb` already maps `None` to `None`). -/
def applyJsonb (jcols : List String) (rec : List (String × Col)) :
    List (String × Col) :=
  rec.map (fun p =>
    if p.1 ∈ jcols then
      (p.1, match p.2 with
            | Col.pv v => Col.pv (_serialize_jsonb v)
            | c => c)
    else p)

/-- A stored table row: identity key, the non-default columns, and the
`created_at` / `updated_at` timestamps the SQL maintains. -/
structure DbRow where
  key : PyVal
  cols : List (String × Col)
  created_at : Nat
  updated_at : Nat
deriving DecidableEq

/-- Semantics of the generated `INSERT … ON CONFLICT (key) DO UPDATE SET
<every non-key column> = EXCLUDED.<column>, updated_at = now()` statement
(db.py lines 481–485 and 567–571).  On a key conflict every non-key column
is overwritten with the new values and `updated_at` is refreshed, while the
key column and `created_at` are untouched; otherwise a fresh row is
appended with both timestamps set by the `DEFAULT now()` clauses. -/
def upsertRow (t : List DbRow) (k : PyVal) (c : List (String × Col))
    (now : Nat) : List DbRow :=
  if t.any (fun r => decide (r.key = k)) then
    t.map (fun r =>
      if r.key = k then
        { key := r.key, cols := c, created_at := r.created_at,
          updated_at := now }
      else r)
  else
    t ++ [{ key := k, cols := c, created_at := now, updated_at := now }]

/-- The record-building loop of `batch_upsert_markets` (db.py lines
381–450): skip any record whose `ticker` is missing or falsy, project the
rest. -/
def buildMarketRecords (raws : List PyDict) :
    List (PyVal × List (String × Col)) :=
  raws.filterMap (fun raw =>
    let ticker := raw.get "ticker"
    if ticker.truthy then some (ticker, projectMarket raw) else Option.none)

/-- The record-building loop of `batch_upsert_events` (db.py lines
520–540). -/
def buildEventRecords (raws : List PyDict) :
    List (PyVal × List (String × Col)) :=
  raws.filterMap (fun raw =>
    let event_ticker := raw.get "event_ticker"
    if event_ticker.truthy then some (event_ticker, projectEvent raw)
    else Option.none)

/-- `batch_upsert_markets` (db.py lines 349–498) against a table state:
empty input returns 0 without touching storage, records without a truthy
`ticker` are skipped, and each surviving record is upserted in order within
one transaction; returns the new table and `len(records)`. -/
def batch_upsert_markets (table : List DbRow) (raw_markets : List PyDict)
    (now : Nat) : List DbRow × Nat :=
  if raw_markets.isEmpty then (table, 0)
  else
    let records := buildMarketRecords raw_markets
    if records.isEmpty then (table, 0)
    else
      (records.foldl
        (fun t r => upsertRow t r.1 (applyJsonb marketJsonbCols r.2) now) table,
       records.length)

/-- `batch_upsert_events` (db.py lines 501–584), same shape keyed by
`event_ticker`. -/
def batch_upsert_events (table : List DbRow) (raw_events : List PyDict)
    (now : Nat) : List DbRow × Nat :=
  if raw_events.isEmpty then (table, 0)
  else
    let records := buildEventRecords raw_events
    if records.isEmpty then (table, 0)
    else
      (records.foldl
        (fun t r => upsertRow t r.1 (applyJsonb eventJsonbCols r.2) now) table,
       records.length)

/-- Look up the stored row with the given identity key. -/
def findRow (t : List DbRow) (k : PyVal) : Option DbRow :=
  t.find? (fun r => decide (r.key = k))


/-- Concrete market payload (first upsert) for the idempotency witness. -/
def sampleMarket1 : PyDict :=
  PyDict.cons "ticker" (PyVal.str "T")
    (PyDict.cons "title" (PyVal.str "A") PyDict.nil)

/-- Concrete market payload (second upsert, different title). -/
def sampleMarket2 : PyDict :=
  PyDict.cons "ticker" (PyVal.str "T")
    (PyDict.cons "title" (PyVal.str "B") PyDict.nil)

/-- Concrete event payload (first upsert). -/
def sampleEvent1 : PyDict :=
  PyDict.cons "event_ticker" (PyVal.str "E")
    (PyDict.cons "title" (PyVal.str "A") PyDict.nil)

/-- Concrete event payload (second upsert, different title). -/
def sampleEvent2 : PyDict :=
  PyDict.cons "event_ticker" (PyVal.str "E")
    (PyDict.cons "title" (PyVal.str "B") PyDict.nil)


/-! ## Theorems: token bucket -/

/-- One good step keeps the configuration fields and the token bounds. -/
theorem TokenBucket.step_inv (b : TokenBucket) (s : BucketStep)
    (hrate : 0 ≤ b.refill_rate_per_second) (hgood : s.good)
    (h0 : 0 ≤ b.tokens) (h1 : b.tokens ≤ b.capacity) :
    (b.step s).capacity = b.capacity ∧
    (b.step s).refill_rate_per_second = b.refill_rate_per_second ∧
    0 ≤ (b.step s).tokens ∧ (b.step s).tokens ≤ b.capacity := by
  have hcap : (0 : ℚ) ≤ b.capacity := le_trans h0 h1
  cases s with
  | refill e =>
      have he : 0 ≤ e := hgood
      refine ⟨rfl, rfl, ?_, ?_⟩
      · exact le_min hcap (add_nonneg h0 (mul_nonneg he hrate))
      · exact min_le_left _ _
  | acquire n e =>
      obtain ⟨he, hn⟩ := hgood
      have hrf0 : 0 ≤ (b.refill e).tokens :=
        le_min hcap (add_nonneg h0 (mul_nonneg he hrate))
      have hrf1 : (b.refill e).tokens ≤ b.capacity := min_le_left _ _
      simp only [TokenBucket.step, TokenBucket.acquireIter]
      by_cases hle : n ≤ (b.refill e).tokens
      · simp only [hle, if_pos]
        refine ⟨rfl, rfl, by linarith, by linarith⟩
      · simp only [hle, if_neg, not_false_iff]
        exact ⟨rfl, rfl, hrf0, hrf1⟩

/-- C5: for every token bucket (non-negative capacity and refill rate, as
produced by the client's requests-per-minute configuration) and every
sequence of interleaved refill and acquire-iteration steps with non-negative
elapsed times and non-negative requested token counts, the token count never
goes negative and never exceeds capacity.  Refill sets tokens to
`min(capacity, tokens + elapsed * refill_rate_per_second)` and an acquire
iteration deducts `n` only when `tokens ≥ n`. -/
theorem tokenBucket_tokens_bounded (capacity rate : ℚ) (b : TokenBucket)
    (steps : List BucketStep)
    (hcap : 0 ≤ capacity) (hrate : 0 ≤ rate)
    (hinit : TokenBucket.init capacity rate = Except.ok b)
    (hsteps : ∀ s ∈ steps, s.good) :
    0 ≤ (b.run steps).tokens ∧ (b.run steps).tokens ≤ (b.run steps).capacity := by
  have hb : b = { capacity := capacity, refill_rate_per_second := rate,
                  tokens := capacity } := by
    simpa [TokenBucket.init] using hinit.symm
  subst hb
  suffices h : ∀ (l : List BucketStep) (c : TokenBucket),
      (∀ s ∈ l, s.good) → 0 ≤ c.refill_rate_per_second → 0 ≤ c.tokens →
      c.tokens ≤ c.capacity →
      0 ≤ (c.run l).tokens ∧ (c.run l).tokens ≤ (c.run l).capacity by
    exact h steps _ hsteps hrate hcap le_rfl
  intro l
  induction l with
  | nil => intro c _ _ h0 h1; exact ⟨h0, h1⟩
  | cons s rest ih =>
      intro c hl hr h0 h1
      obtain ⟨e1, e2, e3, e4⟩ :=
        TokenBucket.step_inv c s hr (hl s (by simp)) h0 h1
      have := ih (c.step s) (fun x hx => hl x (by simp [hx]))
        (by rw [e2]; exact hr) e3 (by rw [e1]; exact e4)
      simpa [TokenBucket.run] using this

/-- Witness for `tokenBucket_tokens_bounded` at a concrete bucket and
step sequence. -/
theorem tokenBucket_tokens_bounded_witness :
    0 ≤ (TokenBucket.run { capacity := 2, refill_rate_per_second := 1, tokens := 2 }
          [.refill 1, .acquire 1 1, .acquire 3 0]).tokens ∧
    (TokenBucket.run { capacity := 2, refill_rate_per_second := 1, tokens := 2 }
          [.refill 1, .acquire 1 1, .acquire 3 0]).tokens ≤
      (TokenBucket.run { capacity := 2, refill_rate_per_second := 1, tokens := 2 }
          [.refill 1, .acquire 1 1, .acquire 3 0]).capacity :=
  tokenBucket_tokens_bounded 2 1 _ _ (by norm_num) (by norm_num) rfl (by decide)

/-- The `acquire` loop never deducts when the request exceeds capacity:
every iteration refills to at most `capacity < n` and fails the check. -/
theorem acquireAttempts_overcapacity_false (n : ℚ) :
    ∀ (es : List ℚ) (b : TokenBucket), b.capacity < n → b.tokens ≤ b.capacity →
      (b.acquireAttempts n es).1 = false := by
  intro es
  induction es with
  | nil => intro b _ _; rfl
  | cons e rest ih =>
      intro b hn htok
      have hrf : (b.refill e).tokens ≤ b.capacity := min_le_left _ _
      have hfail : ¬ n ≤ (b.refill e).tokens :=
        not_le.mpr (lt_of_le_of_lt hrf hn)
      simp only [TokenBucket.acquireAttempts, TokenBucket.acquireIter, hfail,
        if_neg, not_false_iff, if_false]
      exact ih (b.refill e) hn hrf

/-- C6 (amended): the constructor performs no validation — for any
parameters, including an over-capacity situation where `acquire(n)` can
never succeed, `TokenBucket.__init__` returns a bucket — and a request of
`n > capacity` tokens indeed never succeeds: every iteration of the
`acquire` loop fails to deduct, so the call blocks at call time instead of
failing at construction. -/
theorem tokenBucket_overcapacity_never_succeeds (b : TokenBucket) (n : ℚ)
    (es : List ℚ) (hn : b.capacity < n) (htok : b.tokens ≤ b.capacity) :
    TokenBucket.init b.capacity b.refill_rate_per_second =
      Except.ok { capacity := b.capacity,
                  refill_rate_per_second := b.refill_rate_per_second,
                  tokens := b.capacity } ∧
    (b.acquireAttempts n es).1 = false :=
  ⟨rfl, acquireAttempts_overcapacity_false n es b hn htok⟩

/-- Witness for `tokenBucket_overcapacity_never_succeeds`. -/
theorem tokenBucket_overcapacity_never_succeeds_witness :
    TokenBucket.init (TokenBucket.mk 1 1 1).capacity
        (TokenBucket.mk 1 1 1).refill_rate_per_second =
      Except.ok { capacity := (TokenBucket.mk 1 1 1).capacity,
                  refill_rate_per_second := (TokenBucket.mk 1 1 1).refill_rate_per_second,
                  tokens := (TokenBucket.mk 1 1 1).capacity } ∧
    ((TokenBucket.mk 1 1 1).acquireAttempts 2 [1, 5]).1 = false :=
  tokenBucket_overcapacity_never_succeeds (TokenBucket.mk 1 1 1) 2 [1, 5]
    (by norm_num) (by norm_num)

/-- Counterexample to C6 as stated: constructing the bucket with invalid
rate-limit parameters (capacity −1, refill rate 0 — here `acquire(1)` can
never succeed) does NOT fail fast at construction: `__init__` succeeds, and
the failure surfaces only at call time, each acquire iteration failing. -/
theorem tokenBucket_construction_unchecked_counterexample :
    TokenBucket.init (-1) 0 =
      Except.ok { capacity := -1, refill_rate_per_second := 0, tokens := -1 } ∧
    ((TokenBucket.mk (-1) 0 (-1)).acquireAttempts 1 [1, 1, 1]).1 = false :=
  ⟨rfl, acquireAttempts_overcapacity_false 1 [1, 1, 1] (TokenBucket.mk (-1) 0 (-1))
    (by norm_num) (by norm_num)⟩

/-! ## Theorems: retrying transport -/

/-- The retry loop performs at most `max_retries` attempts. -/
theorem requestAttempts_le (t : Nat → Attempt) (mr : Nat) :
    ∀ (k j : Nat), j ≤ mr → mr - j ≤ k → (requestAttempts t mr j).2 ≤ mr := by
  intro k
  induction k with
  | zero =>
      intro j hj hk
      have hnlt : ¬ j < mr := by omega
      rw [requestAttempts]
      simp [hnlt, hj]
  | succ k ih =>
      intro j hj hk
      rw [requestAttempts]
      by_cases hlt : j < mr
      · simp only [hlt, if_pos]
        cases t j with
        | success b => simpa using hlt
        | httpStatusError s =>
            by_cases hc : s ∈ transientStatuses ∧ j < mr - 1
            · simp only [hc, if_pos]
              exact ih (j + 1) (by omega) (by omega)
            · simp only [hc, if_neg, not_false_iff]
              simpa using hlt
        | networkError =>
            by_cases hc : j < mr - 1
            · simp only [hc, if_pos]
              exact ih (j + 1) (by omega) (by omega)
            · simp only [hc, if_neg, not_false_iff]
              simpa using hlt
      · simp [hlt, hj]

/-- A transport that answers 503 on attempts `j, …, j+k-1` and succeeds on
attempt `j+k < max_retries` makes the loop return the success body after
`j+k+1` attempts. -/
theorem requestAttempts_transient_then_success (t : Nat → Attempt) (mr : Nat)
    (b : String) :
    ∀ (k j : Nat), j + k < mr →
      (∀ i, i < k → t (j + i) = .httpStatusError 503) →
      t (j + k) = .success b →
      requestAttempts t mr j = (.body b, j + k + 1) := by
  intro k
  induction k with
  | zero =>
      intro j hj hfail hsucc
      have hlt : j < mr := by omega
      rw [requestAttempts]
      simp only [hlt, if_pos]
      rw [show t j = .success b from hsucc]
  | succ k ih =>
      intro j hj hfail hsucc
      have hlt : j < mr := by omega
      have h0 : t j = .httpStatusError 503 := by
        simpa using hfail 0 (Nat.succ_pos k)
      have hcond : (503 ∈ transientStatuses ∧ j < mr - 1) := by
        refine ⟨by simp [transientStatuses], by omega⟩
      rw [requestAttempts]
      simp only [hlt, if_pos, h0, hcond]
      have hrec := ih (j + 1) (by omega)
        (fun i hi => by
          have := hfail (i + 1) (by omega)
          simpa [show j + 1 + i = j + (i + 1) by omega] using this)
        (by simpa [show j + 1 + k = j + (k + 1) by omega] using hsucc)
      simpa [show j + 1 + k + 1 = j + (k + 1) + 1 by omega] using hrec

/-- A non-transient HTTP status on the first attempt is re-raised at once. -/
theorem requestAttempts_nontransient (t : Nat → Attempt) (mr s : Nat)
    (hmr : 0 < mr) (ht : t 0 = .httpStatusError s)
    (hs : s ∉ transientStatuses) :
    requestAttempts t mr 0 = (.raised (.httpStatusError s), 1) := by
  rw [requestAttempts]
  simp only [hmr, if_pos, ht]
  rw [if_neg (fun h => hs h.1)]

/-- C2: `_request_with_retry` retries only on transient outcomes (HTTP
status in {429, 502, 503, 504} or connection/timeout failures), makes at
most `max_retries` (default value 3 in the source) attempts in total; a
transport failing with 503 exactly `k < max_retries` times then succeeding
returns the success result, while a non-transient status (e.g. 500)
propagates immediately after a single attempt. -/
theorem retry_policy (t₁ t₂ t₃ : Nat → Attempt) (mr mr₃ k s : Nat) (b : String)
    (hk : k < mr)
    (hfail : ∀ i, i < k → t₁ i = .httpStatusError 503)
    (hsucc : t₁ k = .success b)
    (hmr : 0 < mr)
    (ht₂ : t₂ 0 = .httpStatusError s)
    (hs : s ∉ transientStatuses) :
    (requestWithRetry t₃ mr₃).attemptsMade ≤ mr₃ ∧
    requestWithRetry t₁ mr =
      { tokensAcquired := 1, attemptsMade := k + 1, result := .body b } ∧
    requestWithRetry t₂ mr =
      { tokensAcquired := 1, attemptsMade := 1,
        result := .raised (.httpStatusError s) } := by
  refine ⟨?_, ?_, ?_⟩
  · exact requestAttempts_le t₃ mr₃ mr₃ 0 (Nat.zero_le _) (by omega)
  · have := requestAttempts_transient_then_success t₁ mr b k 0 (by omega)
      (fun i hi => by simpa using hfail i hi) (by simpa using hsucc)
    simp [requestWithRetry, this]
  · have := requestAttempts_nontransient t₂ mr s hmr ht₂ hs
    simp [requestWithRetry, this]

/-- Witness for `retry_policy`: two 503s then success with `max_retries = 3`
returns the body in three attempts; an immediate 500 raises after one. -/
theorem retry_policy_witness :
    (requestWithRetry (fun _ => .networkError) 5).attemptsMade ≤ 5 ∧
    requestWithRetry (fun i => if i < 2 then .httpStatusError 503
                               else .success "ok") 3 =
      { tokensAcquired := 1, attemptsMade := 3, result := .body "ok" } ∧
    requestWithRetry (fun _ => .httpStatusError 500) 3 =
      { tokensAcquired := 1, attemptsMade := 1,
        result := .raised (.httpStatusError 500) } :=
  retry_policy (fun i => if i < 2 then .httpStatusError 503 else .success "ok")
    (fun _ => .httpStatusError 500) (fun _ => .networkError) 3 5 2 500 "ok"
    (by omega) (by decide) (by decide) (by omega) (by decide) (by decide)

/-- C10: with `max_retries = 0` the call still acquires one rate-limiter
token, performs zero HTTP attempts, and the function falls through its
`for` loop, implicitly returning `None`. -/
theorem requestWithRetry_zero_retries (t : Nat → Attempt) :
    requestWithRetry t 0 =
      { tokensAcquired := 1, attemptsMade := 0, result := .noneFallthrough } := by
  rw [requestWithRetry, requestAttempts]
  simp

/-! ## Theorems: pagination -/

/-- Core pagination lemma: with every non-final page carrying a truthy
cursor and the final page a falsy one, the loop accumulates the
concatenation of all pages' records, and the cursor arguments it passes are
the initial cursor followed by each server-returned cursor in order. -/
theorem pollPages_spec {R : Type} (ps : List (Page R)) (plast : Page R) :
    ∀ (c : Option String),
      (∀ p ∈ ps, truthyStr p.cursor = true) →
      truthyStr plast.cursor = false →
      (pollPages c (ps ++ [plast])).1 = ((ps ++ [plast]).map Page.records).flatten ∧
      (pollPages c (ps ++ [plast])).2 = c :: ps.map Page.cursor := by
  induction ps with
  | nil =>
      intro c _ hlast
      simp [pollPages, hlast]
  | cons p ps ih =>
      intro c hps hlast
      have hp : truthyStr p.cursor = true := hps p (by simp)
      obtain ⟨h1, h2⟩ := ih p.cursor (fun q hq => hps q (by simp [hq])) hlast
      simp [pollPages, hp, h1, h2]

/-- C3: one polling pass requests the first page with the cursor parameter
omitted, then passes each server-returned cursor, accumulates exactly the
concatenation of all pages' records, and terminates exactly when the server
returns no cursor (`None`; Python also treats an empty-string cursor as
absent).  The last two conjuncts show the `get_markets` parameter assembly:
no `cursor` key when the argument is `None`, the returned cursor passed
through when present. -/
theorem pagination_correct {R : Type} (ps : List (Page R)) (plast : Page R)
    (limit : Nat) (mve : String) (c : String)
    (hps : ∀ p ∈ ps, truthyStr p.cursor = true)
    (hlast : truthyStr plast.cursor = false)
    (hc : c ≠ "") :
    (pollPages Option.none (ps ++ [plast])).1 =
      ((ps ++ [plast]).map Page.records).flatten ∧
    (pollPages Option.none (ps ++ [plast])).2 =
      Option.none :: ps.map Page.cursor ∧
    "cursor" ∉ (get_markets_params limit Option.none mve Option.none).map Prod.fst ∧
    ("cursor", c) ∈ get_markets_params limit (some c) mve Option.none := by
  obtain ⟨h1, h2⟩ := pollPages_spec ps plast Option.none hps hlast
  refine ⟨h1, h2, ?_, ?_⟩
  · simp [get_markets_params, truthyStr]
  · simp [get_markets_params, truthyStr, hc]

/-- Witness for `pagination_correct`: the spec's fixture
`[[r1,r2], cursor="a"], [[r3], cursor=None]` yields exactly `r1, r2, r3`,
with the first request omitting the cursor and the second passing `"a"`. -/
theorem pagination_correct_witness :
    (pollPages Option.none
        ([Page.mk ["r1", "r2"] (some "a")] ++ [Page.mk ["r3"] Option.none])).1 =
      (([Page.mk ["r1", "r2"] (some "a")] ++ [Page.mk ["r3"] Option.none]).map
        Page.records).flatten ∧
    (pollPages Option.none
        ([Page.mk ["r1", "r2"] (some "a")] ++ [Page.mk ["r3"] Option.none])).2 =
      Option.none :: [Page.mk ["r1", "r2"] (some "a")].map Page.cursor ∧
    "cursor" ∉ (get_markets_params 1000 Option.none "exclude" Option.none).map
      Prod.fst ∧
    ("cursor", "a") ∈ get_markets_params 1000 (some "a") "exclude" Option.none :=
  pagination_correct [Page.mk ["r1", "r2"] (some "a")] (Page.mk ["r3"] Option.none)
    1000 "exclude" "a" (by decide) (by decide) (by decide)

/-! ## Theorems: batch accumulator -/

/-- Single-record pushes from a buffer strictly below the threshold: exactly
one flush fires, at the push where the buffer length reaches `batch_size`. -/
theorem accumFold_singles {R : Type} (bs : Nat) (hbs : 1 < bs) :
    ∀ (rs : List R) (b : List R) (fl : List (List R)),
      b.length + rs.length = bs + 1 → b.length < bs →
      (rs.map (fun r => [r])).foldl (accumPush bs) { buf := b, flushes := fl } =
        { buf := rs.drop (bs - b.length),
          flushes := fl ++ [b ++ rs.take (bs - b.length)] } := by
  intro rs
  induction rs with
  | nil =>
      intro b fl h1 h2
      simp only [List.length_nil] at h1
      omega
  | cons r rest ih =>
      intro b fl h1 h2
      simp only [List.length_cons] at h1
      simp only [List.map_cons, List.foldl_cons]
      by_cases hfull : bs ≤ b.length + 1
      · have hb : b.length + 1 = bs := by omega
        have hrest : rest.length = 1 := by omega
        obtain ⟨x, hx⟩ := List.length_eq_one.mp hrest
        subst hx
        have hone : bs - b.length = 1 := by omega
        have hpush1 : accumPush bs { buf := b, flushes := fl } [r] =
            { buf := [], flushes := fl ++ [b ++ [r]] } := by
          simp only [accumPush]
          rw [if_pos (by simp; omega)]
        rw [hpush1]
        simp only [List.map_cons, List.map_nil, List.foldl_cons, List.foldl_nil]
        have hpush2 : accumPush bs { buf := ([] : List R), flushes := fl ++ [b ++ [r]] } [x] =
            { buf := [x], flushes := fl ++ [b ++ [r]] } := by
          simp only [accumPush]
          rw [if_neg (by simp; omega)]
          simp
        rw [hpush2, hone]
        simp
      · have hpush : accumPush bs { buf := b, flushes := fl } [r] =
            { buf := b ++ [r], flushes := fl } := by
          simp only [accumPush]
          rw [if_neg (by simp; omega)]
        rw [hpush]
        rw [ih (b ++ [r]) fl (by simp; omega) (by simp; omega)]
        have hm : bs - b.length = (bs - (b.length + 1)) + 1 := by omega
        rw [hm]
        simp [List.take_succ_cons, List.drop_succ_cons]

/-- C4 (amended: for `batch_size ≥ 2`, which includes the default 500; with
`batch_size = 1` every push flushes immediately, see the counterexample
theorem): pushing `batch_size + 1` records one at a time triggers exactly
one automatic flush, of exactly `batch_size` records, leaves exactly one
record buffered, and the final drain then flushes that remaining record.
The last two conjuncts are the general flush law: a push flushes exactly
when the buffer length reaches `batch_size`, and every flush clears the
buffer. -/
theorem batching_flush {R : Type} (bs : Nat) (rs : List R) (st : Accum R)
    (page : List R) (hbs : 1 < bs) (hlen : rs.length = bs + 1) :
    accumRun bs (rs.map (fun r => [r])) =
      { buf := rs.drop bs, flushes := [rs.take bs] } ∧
    (rs.take bs).length = bs ∧
    (rs.drop bs).length = 1 ∧
    accumDrain (accumRun bs (rs.map (fun r => [r]))) =
      { buf := [], flushes := [rs.take bs, rs.drop bs] } ∧
    ((accumPush bs st page).flushes ≠ st.flushes ↔
      bs ≤ st.buf.length + page.length) ∧
    ((accumPush bs st page).flushes ≠ st.flushes →
      (accumPush bs st page).buf = []) := by
  have hrun : accumRun bs (rs.map (fun r => [r])) =
      { buf := rs.drop bs, flushes := [rs.take bs] } := by
    have := accumFold_singles bs hbs rs [] [] (by simpa using hlen)
      (by simp; omega)
    simpa [accumRun] using this
  have htake : (rs.take bs).length = bs := by
    rw [List.length_take, hlen]; omega
  have hdrop : (rs.drop bs).length = 1 := by
    rw [List.length_drop, hlen]; omega
  have hne : (rs.drop bs).isEmpty = false := by
    cases h : rs.drop bs with
    | nil => rw [h] at hdrop; simp at hdrop
    | cons a l => rfl
  refine ⟨hrun, htake, hdrop, ?_, ?_, ?_⟩
  · rw [hrun]
    simp [accumDrain, hne]
  · by_cases hcond : bs ≤ st.buf.length + page.length
    · refine ⟨fun _ => hcond, fun _ => ?_⟩
      simp only [accumPush, List.length_append]
      rw [if_pos hcond]
      intro heq
      have := congrArg List.length heq
      simp at this
    · refine ⟨fun h => ?_, fun h => absurd h hcond⟩
      exfalso
      apply h
      simp only [accumPush, List.length_append]
      rw [if_neg hcond]
  · intro h
    by_cases hcond : bs ≤ st.buf.length + page.length
    · simp only [accumPush, List.length_append]
      rw [if_pos hcond]
    · exfalso
      apply h
      simp only [accumPush, List.length_append]
      rw [if_neg hcond]

/-- Witness for `batching_flush`: `batch_size = 2`, records `a b c` — one
automatic flush of `[a, b]`, `c` left buffered, drained at the end. -/
theorem batching_flush_witness :
    accumRun 2 (["a", "b", "c"].map (fun r => [r])) =
      { buf := ["a", "b", "c"].drop 2, flushes := [["a", "b", "c"].take 2] } ∧
    (["a", "b", "c"].take 2).length = 2 ∧
    (["a", "b", "c"].drop 2).length = 1 ∧
    accumDrain (accumRun 2 (["a", "b", "c"].map (fun r => [r]))) =
      { buf := [], flushes := [["a", "b", "c"].take 2, ["a", "b", "c"].drop 2] } ∧
    ((accumPush 2 (Accum.mk ["x"] []) ["y"]).flushes ≠ (Accum.mk ["x"] []).flushes ↔
      2 ≤ (Accum.mk ["x"] ([] : List (List String))).buf.length + ["y"].length) ∧
    ((accumPush 2 (Accum.mk ["x"] []) ["y"]).flushes ≠ (Accum.mk ["x"] []).flushes →
      (accumPush 2 (Accum.mk ["x"] []) ["y"]).buf = []) :=
  batching_flush 2 ["a", "b", "c"] (Accum.mk ["x"] []) ["y"]
    (by omega) (by decide)

/-- Counterexample to C4 as stated for `batch_size = 1`: pushing
`batch_size + 1 = 2` records triggers TWO automatic flushes (each of a
single record) and leaves the buffer empty, so the final drain flushes
nothing — not one flush of `batch_size` records with one record left. -/
theorem batching_flush_counterexample :
    accumRun 1 [["a"], ["b"]] =
      { buf := ([] : List String), flushes := [["a"], ["b"]] } ∧
    accumDrain (accumRun 1 [["a"], ["b"]]) =
      { buf := ([] : List String), flushes := [["a"], ["b"]] } := by
  decide

/-! ## Theorems: lifecycle supervisor -/

/-- Each event preserves the invariant that the only running polling task, if
any, is the one the module-global handle points to. -/
theorem SupWorld.inv_step (w : SupWorld) (s : SupStep) (h : w.inv) :
    (w.step s).inv := by
  cases s with
  | start =>
      show (startIngestion w).inv
      unfold SupWorld.inv startIngestion at *
      cases htask : w.task with
      | none =>
          rw [htask] at h
          simp only [htask]
          simp [h]
      | some t =>
          rw [htask] at h
          simp only [htask]
          by_cases hm : t ∈ w.running
          · rw [if_pos hm, htask]
            exact h
          · rw [if_neg hm]
            rcases h with h | h
            · simp [h]
            · rw [h] at hm
              simp at hm
  | stop =>
      show (stopIngestion w).inv
      unfold SupWorld.inv stopIngestion at *
      cases htask : w.task with
      | none => simp only [htask]; rw [htask] at h; exact h
      | some t =>
          rw [htask] at h
          simp only [htask]
          rcases h with h | h <;> simp [h]
  | finish t =>
      unfold SupWorld.inv SupWorld.step at *
      cases htask : w.task with
      | none =>
          rw [htask] at h
          simp [htask, h]
      | some u =>
          rw [htask] at h
          simp only [htask]
          rcases h with h | h
          · left; simp [h]
          · by_cases hut : t = u
            · left; simp [h, hut]
            · right; rw [h]; simp [List.erase_cons]
              intro heq; exact absurd heq.symm hut
  
/-- The invariant holds in every reachable world. -/
theorem SupWorld.inv_run (steps : List SupStep) : (SupWorld.run steps).inv := by
  suffices h : ∀ (l : List SupStep) (w : SupWorld), w.inv →
      (l.foldl SupWorld.step w).inv by
    exact h steps SupWorld.init (by simp [SupWorld.inv, SupWorld.init])
  intro l
  induction l with
  | nil => intro w hw; exact hw
  | cons s rest ih =>
      intro w hw
      exact ih (w.step s) (SupWorld.inv_step w s hw)

/-- C9: the lifecycle calls are idempotent — `start_ingestion` with a
running task is a no-op, `stop_ingestion` with no task handle is a no-op,
`stop_ingestion` always leaves the supervisor idle with no task handle —
and in every world reachable from module import at most one polling task
is running. -/
theorem lifecycle_idempotent (w₁ w₂ w₃ : SupWorld) (t : Nat)
    (steps : List SupStep)
    (h₁ : w₁.task = some t) (h₂ : t ∈ w₁.running)
    (h₃ : w₂.task = Option.none) :
    startIngestion w₁ = w₁ ∧
    stopIngestion w₂ = w₂ ∧
    (stopIngestion w₃).task = Option.none ∧
    (SupWorld.run steps).running.length ≤ 1 := by
  refine ⟨?_, ?_, ?_, ?_⟩
  · unfold startIngestion
    rw [h₁]
    simp [h₂]
  · unfold stopIngestion
    rw [h₃]
  · unfold stopIngestion
    cases htask : w₃.task <;> simp [htask]
  · have hinv := SupWorld.inv_run steps
    unfold SupWorld.inv at hinv
    cases htask : (SupWorld.run steps).task with
    | none => rw [htask] at hinv; simp [hinv]
    | some u =>
        rw [htask] at hinv
        rcases hinv with h | h <;> simp [h]

/-- Witness for `lifecycle_idempotent` at concrete worlds and a concrete
event sequence. -/
theorem lifecycle_idempotent_witness :
    startIngestion (SupWorld.mk (some 0) [0] 1) = SupWorld.mk (some 0) [0] 1 ∧
    stopIngestion (SupWorld.mk Option.none [] 0) = SupWorld.mk Option.none [] 0 ∧
    (stopIngestion (SupWorld.mk (some 5) [5] 6)).task = Option.none ∧
    (SupWorld.run [.start, .start, .stop, .start]).running.length ≤ 1 :=
  lifecycle_idempotent (SupWorld.mk (some 0) [0] 1) (SupWorld.mk Option.none [] 0)
    (SupWorld.mk (some 5) [5] 6) 0 [.start, .start, .stop, .start]
    rfl (by decide) rfl

/-! ## Theorems: conversion functions -/

/-- Every branch of `_as_int_E` returns `ok`: the nested `try/except` has no
escaping exception path. -/
theorem as_int_E_exists (v : PyVal) : ∃ o, _as_int_E v = Except.ok o := by
  unfold _as_int_E
  split
  · exact ⟨_, rfl⟩
  · split
    · exact ⟨_, rfl⟩
    · split
      · exact ⟨_, rfl⟩
      · exact ⟨_, rfl⟩

/-- Every branch of `_as_decimal_E` returns `ok`. -/
theorem as_decimal_E_exists (v : PyVal) : ∃ o, _as_decimal_E v = Except.ok o := by
  unfold _as_decimal_E
  split
  · exact ⟨_, rfl⟩
  · split
    · exact ⟨_, rfl⟩
    · exact ⟨_, rfl⟩

/-- Every branch of `_as_datetime_E` returns `ok`. -/
theorem as_datetime_E_exists (v : PyVal) :
    ∃ o, _as_datetime_E v = Except.ok o := by
  unfold _as_datetime_E
  split
  · exact ⟨_, rfl⟩
  · split
    · exact ⟨_, rfl⟩
    · exact ⟨_, rfl⟩
  · split
    · exact ⟨_, rfl⟩
    · exact ⟨_, rfl⟩
  · split
    · exact ⟨_, rfl⟩
    · exact ⟨_, rfl⟩
  · exact ⟨_, rfl⟩
  · split
    · exact ⟨_, rfl⟩
    · exact ⟨_, rfl⟩

/-- `_as_int` never throws: the raising version always returns `ok` of the
pure value. -/
theorem as_int_E_total (v : PyVal) : _as_int_E v = Except.ok (_as_int v) := by
  obtain ⟨o, h⟩ := as_int_E_exists v
  simp [_as_int, h]

/-- `_as_decimal` never throws. -/
theorem as_decimal_E_total (v : PyVal) :
    _as_decimal_E v = Except.ok (_as_decimal v) := by
  obtain ⟨o, h⟩ := as_decimal_E_exists v
  simp [_as_decimal, h]

/-- `_as_datetime` never throws. -/
theorem as_datetime_E_total (v : PyVal) :
    _as_datetime_E v = Except.ok (_as_datetime v) := by
  obtain ⟨o, h⟩ := as_datetime_E_exists v
  simp [_as_datetime, h]

/-- C8: each conversion function used by the sink is total and never
throws: for every input it returns `ok` of its pure value, malformed
numeric/date strings degrade to `None`, and well-formed values convert to
the corresponding typed value (sample evaluations included). -/
theorem conversions_total_never_throw (v : PyVal) :
    _as_int_E v = Except.ok (_as_int v) ∧
    _as_decimal_E v = Except.ok (_as_decimal v) ∧
    _as_datetime_E v = Except.ok (_as_datetime v) ∧
    _as_int_E (PyVal.str "abc") = Except.ok Option.none ∧
    _as_int_E (PyVal.str "42") = Except.ok (some 42) ∧
    _as_int_E (PyVal.str "2.5") = Except.ok (some 2) ∧
    _as_decimal_E (PyVal.str "not-a-number") = Except.ok Option.none ∧
    _as_decimal_E (PyVal.str "1.25") = Except.ok (some (PyDec.num (5 / 4))) ∧
    _as_datetime_E (PyVal.str "not-a-date") = Except.ok Option.none ∧
    _as_datetime_E (PyVal.str "2024-01-02T03:04:05Z") =
      Except.ok (some (PyDateTime.isoDate 2024 1 2 3 4 5 0 (some 0))) ∧
    _as_datetime_E (PyVal.int 100) =
      Except.ok (some (PyDateTime.fromTimestamp 100)) := by
  refine ⟨as_int_E_total v, as_decimal_E_total v, as_datetime_E_total v,
    by decide, by decide, ?_, by decide, ?_, by decide, by decide, by decide⟩
  · simp [_as_int_E, pyIntB, pyFloatB, intOfString, intOfChars, trimChars,
      floatOfString, floatOfChars, floatOfCharsUnsigned, parseMantissa,
      parseExp, applyExp, digitsVal, digitsValAux, ratTrunc]
    norm_num
    decide
  · simp [_as_decimal_E, pyDecimalB, PyVal.pyStr, decimalOfString, trimChars,
      floatOfChars, floatOfCharsUnsigned, parseMantissa, parseExp, applyExp,
      digitsVal, digitsValAux, lowerChar]
    norm_num

/-! ## Theorems: upsert sink, dropped records -/

/-- A list is empty exactly when its length is 0. -/
theorem list_isEmpty_iff_len {α : Type} (l : List α) :
    l.isEmpty = true ↔ l.length = 0 := by
  cases l <;> simp

/-- `batch_upsert_markets` depends on the input only through the surviving
records. -/
theorem batch_upsert_markets_eq (t : List DbRow) (raws : List PyDict)
    (now : Nat) :
    batch_upsert_markets t raws now =
      (if (buildMarketRecords raws).isEmpty then (t, 0)
       else ((buildMarketRecords raws).foldl
          (fun tb r => upsertRow tb r.1 (applyJsonb marketJsonbCols r.2) now) t,
          (buildMarketRecords raws).length)) := by
  unfold batch_upsert_markets
  cases raws with
  | nil => simp [buildMarketRecords]
  | cons r rest => simp

/-- `batch_upsert_events` depends on the input only through the surviving
records. -/
theorem batch_upsert_events_eq (t : List DbRow) (raws : List PyDict)
    (now : Nat) :
    batch_upsert_events t raws now =
      (if (buildEventRecords raws).isEmpty then (t, 0)
       else ((buildEventRecords raws).foldl
          (fun tb r => upsertRow tb r.1 (applyJsonb eventJsonbCols r.2) now) t,
          (buildEventRecords raws).length)) := by
  unfold batch_upsert_events
  cases raws with
  | nil => simp [buildEventRecords]
  | cons r rest => simp

/-- Dropping the falsy-`ticker` records first does not change the built
market records. -/
theorem buildMarketRecords_filter (raws : List PyDict) :
    buildMarketRecords (raws.filter (fun r => (r.get "ticker").truthy)) =
      buildMarketRecords raws := by
  induction raws with
  | nil => rfl
  | cons r rest ih =>
      by_cases h : (r.get "ticker").truthy
      · simp only [buildMarketRecords, List.filter_cons, h, if_true,
          List.filterMap_cons] at *
        simp [h, ih]
      · simp only [buildMarketRecords, List.filter_cons, h, if_false,
          List.filterMap_cons] at *
        simp [h, ih]

/-- The number of built market records is the number of surviving inputs. -/
theorem buildMarketRecords_length (raws : List PyDict) :
    (buildMarketRecords raws).length =
      (raws.filter (fun r => (r.get "ticker").truthy)).length := by
  induction raws with
  | nil => rfl
  | cons r rest ih =>
      by_cases h : (r.get "ticker").truthy
      · simp [buildMarketRecords, List.filterMap_cons, List.filter_cons, h] at *
        exact ih
      · simp [buildMarketRecords, List.filterMap_cons, List.filter_cons, h] at *
        exact ih

/-- Dropping the falsy-`event_ticker` records first does not change the
built event records. -/
theorem buildEventRecords_filter (raws : List PyDict) :
    buildEventRecords (raws.filter (fun r => (r.get "event_ticker").truthy)) =
      buildEventRecords raws := by
  induction raws with
  | nil => rfl
  | cons r rest ih =>
      by_cases h : (r.get "event_ticker").truthy
      · simp only [buildEventRecords, List.filter_cons, h, if_true,
          List.filterMap_cons] at *
        simp [h, ih]
      · simp only [buildEventRecords, List.filter_cons, h, if_false,
          List.filterMap_cons] at *
        simp [h, ih]

/-- The number of built event records is the number of surviving inputs. -/
theorem buildEventRecords_length (raws : List PyDict) :
    (buildEventRecords raws).length =
      (raws.filter (fun r => (r.get "event_ticker").truthy)).length := by
  induction raws with
  | nil => rfl
  | cons r rest ih =>
      by_cases h : (r.get "event_ticker").truthy
      · simp [buildEventRecords, List.filterMap_cons, List.filter_cons, h] at *
        exact ih
      · simp [buildEventRecords, List.filterMap_cons, List.filter_cons, h] at *
        exact ih

/-- C7: a record missing its primary identity field (`ticker` for markets,
`event_ticker` for events) is dropped and never written — the batch upsert
behaves exactly as if it were given only the surviving records — and the
returned `rows_written` count is the number of surviving records,
excluding the dropped ones. -/
theorem upsert_drops_missing_identity (tm te : List DbRow)
    (raws : List PyDict) (now : Nat) :
    batch_upsert_markets tm raws now =
      batch_upsert_markets tm
        (raws.filter (fun r => (r.get "ticker").truthy)) now ∧
    (batch_upsert_markets tm raws now).2 =
      (raws.filter (fun r => (r.get "ticker").truthy)).length ∧
    batch_upsert_events te raws now =
      batch_upsert_events te
        (raws.filter (fun r => (r.get "event_ticker").truthy)) now ∧
    (batch_upsert_events te raws now).2 =
      (raws.filter (fun r => (r.get "event_ticker").truthy)).length := by
  refine ⟨?_, ?_, ?_, ?_⟩
  · rw [batch_upsert_markets_eq, batch_upsert_markets_eq,
      buildMarketRecords_filter]
  · rw [batch_upsert_markets_eq]
    by_cases h : (buildMarketRecords raws).isEmpty
    · rw [if_pos h]
      have := (list_isEmpty_iff_len _).mp h
      rw [buildMarketRecords_length] at this
      simp [this.symm]
    · rw [if_neg h]
      exact buildMarketRecords_length raws
  · rw [batch_upsert_events_eq, batch_upsert_events_eq,
      buildEventRecords_filter]
  · rw [batch_upsert_events_eq]
    by_cases h : (buildEventRecords raws).isEmpty
    · rw [if_pos h]
      have := (list_isEmpty_iff_len _).mp h
      rw [buildEventRecords_length] at this
      simp [this.symm]
    · rw [if_neg h]
      exact buildEventRecords_length raws

/-! ## Theorems: upsert idempotency -/

/-- When some row matches the key, the conflict-update pass finds exactly
the first matching row and rewrites it: new columns, fresh `updated_at`,
`created_at` untouched. -/
theorem find_map_update (k : PyVal) (c : List (String × Col)) (now : Nat) :
    ∀ (t : List DbRow), t.any (fun r => decide (r.key = k)) = true →
      ∃ r₀, t.find? (fun r => decide (r.key = k)) = some r₀ ∧
        (t.map (fun r =>
            if r.key = k then
              { key := r.key, cols := c, created_at := r.created_at,
                updated_at := now }
            else r)).find? (fun r => decide (r.key = k)) =
          some (DbRow.mk k c r₀.created_at now) := by
  intro t
  induction t with
  | nil => intro h; simp at h
  | cons r rest ih =>
      intro h
      by_cases hk : r.key = k
      · refine ⟨r, ?_, ?_⟩
        · simp [List.find?, hk]
        · simp [List.find?, hk]
      · have h' : rest.any (fun r => decide (r.key = k)) = true := by
          simpa [List.any_cons, hk] using h
        obtain ⟨r₀, hf, hm⟩ := ih h'
        refine ⟨r₀, ?_, ?_⟩
        · simp [List.find?, hk, hf]
        · simp [List.find?, hk, hm]

/-- With no matching row, the fresh row appended by the insert branch is
the one the key lookup finds. -/
theorem find_append_new (k : PyVal) (c : List (String × Col)) (now : Nat) :
    ∀ (t : List DbRow), t.any (fun r => decide (r.key = k)) = false →
      t.find? (fun r => decide (r.key = k)) = Option.none ∧
      (t ++ [DbRow.mk k c now now]).find? (fun r => decide (r.key = k)) =
        some (DbRow.mk k c now now) := by
  intro t
  induction t with
  | nil =>
      intro _
      refine ⟨rfl, ?_⟩
      simp [List.find?]
  | cons r rest ih =>
      intro h
      simp only [List.any_cons, Bool.or_eq_false_iff] at h
      obtain ⟨h1, h2⟩ := h
      have h1' : ¬ r.key = k := by simpa using h1
      obtain ⟨ihf, iha⟩ := ih h2
      refine ⟨?_, ?_⟩
      · simp [List.find?, h1', ihf]
      · simp [List.find?, h1', iha]

/-- The upserted table's key lookup: the stored row carries the new columns
and `updated_at`, and keeps the pre-existing `created_at` when the key was
already present (else both timestamps are the insert time). -/
theorem findRow_upsert (t : List DbRow) (k : PyVal)
    (c : List (String × Col)) (now : Nat) :
    findRow (upsertRow t k c now) k =
      some (DbRow.mk k c (((findRow t k).map DbRow.created_at).getD now) now) := by
  unfold findRow upsertRow
  by_cases ha : t.any (fun r => decide (r.key = k)) = true
  · obtain ⟨r₀, hf, hm⟩ := find_map_update k c now t ha
    rw [if_pos ha, hm, hf]
    rfl
  · have ha' : t.any (fun r => decide (r.key = k)) = false := by
      simpa using ha
    obtain ⟨hf, hm⟩ := find_append_new k c now t ha'
    rw [if_neg ha, hm, hf]
    rfl

/-- Upserting never changes the row count when the key is present, and adds
exactly one row otherwise. -/
theorem upsertRow_length (t : List DbRow) (k : PyVal)
    (c : List (String × Col)) (now : Nat) :
    (upsertRow t k c now).length =
      if t.any (fun r => decide (r.key = k)) then t.length
      else t.length + 1 := by
  unfold upsertRow
  by_cases h : t.any (fun r => decide (r.key = k)) <;> simp [h]

/-- Upserting preserves distinctness of the stored keys. -/
theorem upsertRow_keys_nodup (t : List DbRow) (k : PyVal)
    (c : List (String × Col)) (now : Nat)
    (h : (t.map DbRow.key).Nodup) :
    ((upsertRow t k c now).map DbRow.key).Nodup := by
  unfold upsertRow
  by_cases ha : t.any (fun r => decide (r.key = k)) = true
  · rw [if_pos ha, List.map_map]
    have heq : t.map (DbRow.key ∘ fun r =>
        if r.key = k then
          { key := r.key, cols := c, created_at := r.created_at,
            updated_at := now }
        else r) = t.map DbRow.key := by
      apply List.map_congr_left
      intro r _
      by_cases hk : r.key = k <;> simp [hk]
    rw [heq]
    exact h
  · rw [if_neg ha, List.map_append]
    simp only [List.map_cons, List.map_nil]
    rw [List.nodup_append]
    refine ⟨h, List.nodup_singleton _, ?_⟩
    intro x hx hxk
    rw [List.mem_singleton] at hxk
    subst hxk
    obtain ⟨r, hr, hrk⟩ := List.mem_map.mp hx
    exact ha (List.any_eq_true.mpr ⟨r, hr, by simp [hrk]⟩)

/-- Under distinct keys, the number of rows matching a key is 1 when the
key is stored, 0 otherwise. -/
theorem filter_key_length (k : PyVal) :
    ∀ (t : List DbRow), (t.map DbRow.key).Nodup →
      (t.filter (fun r => decide (r.key = k))).length =
        if t.any (fun r => decide (r.key = k)) then 1 else 0 := by
  intro t
  induction t with
  | nil => intro _; simp
  | cons r rest ih =>
      intro h
      simp only [List.map_cons, List.nodup_cons] at h
      obtain ⟨hnotin, hrest⟩ := h
      by_cases hk : r.key = k
      · have hrestno : rest.any (fun r => decide (r.key = k)) = false := by
          by_contra hc
          rw [Bool.not_eq_false] at hc
          obtain ⟨r', hr', hkr'⟩ := List.any_eq_true.mp hc
          have hk' : r'.key = k := of_decide_eq_true hkr'
          apply hnotin
          rw [hk, ← hk']
          exact List.mem_map_of_mem DbRow.key hr'
        have hlen := ih hrest
        rw [hrestno] at hlen
        simp at hlen
        simp [List.filter_cons, hk, List.any_cons]
        exact hlen
      · simp [List.filter_cons, List.any_cons, hk, ih hrest]

/-- After an upsert exactly one stored row matches the key. -/
theorem upsertRow_count_one (t : List DbRow) (k : PyVal)
    (c : List (String × Col)) (now : Nat)
    (h : (t.map DbRow.key).Nodup) :
    ((upsertRow t k c now).filter (fun r => decide (r.key = k))).length = 1 := by
  have hn := upsertRow_keys_nodup t k c now h
  rw [filter_key_length k _ hn]
  have hf := findRow_upsert t k c now
  unfold findRow at hf
  have hany : (upsertRow t k c now).any (fun r => decide (r.key = k)) = true :=
    List.any_eq_true.mpr ⟨_, List.mem_of_find?_eq_some hf, by simp⟩
  rw [if_pos hany]

/-- A one-record market batch with a truthy `ticker` is a single upsert
counting one row. -/
theorem batch_upsert_markets_single (t : List DbRow) (raw : PyDict) (now : Nat)
    (h : (raw.get "ticker").truthy = true) :
    batch_upsert_markets t [raw] now =
      (upsertRow t (raw.get "ticker")
        (applyJsonb marketJsonbCols (projectMarket raw)) now, 1) := by
  simp [batch_upsert_markets, buildMarketRecords, h]

/-- A one-record event batch with a truthy `event_ticker` is a single
upsert counting one row. -/
theorem batch_upsert_events_single (t : List DbRow) (raw : PyDict) (now : Nat)
    (h : (raw.get "event_ticker").truthy = true) :
    batch_upsert_events t [raw] now =
      (upsertRow t (raw.get "event_ticker")
        (applyJsonb eventJsonbCols (projectEvent raw)) now, 1) := by
  simp [batch_upsert_events, buildEventRecords, h]

/-- C1: upserting the same identity key twice with different payloads, for
markets and for events.  After the second upsert: exactly one stored row
matches the key; that row carries the second payload's column values and
`updated_at` refreshed to the second upsert time; its `created_at` is
exactly the `created_at` after the first upsert (never reset); and the row
count is invariant under the repeated upsert of the same key. -/
theorem upsert_idempotent_overwrite
    (tm te : List DbRow) (m1 m2 e1 e2 : PyDict) (km ke : PyVal) (n1 n2 : Nat)
    (hmnd : (tm.map DbRow.key).Nodup) (hend : (te.map DbRow.key).Nodup)
    (hm1 : m1.get "ticker" = km) (hm2 : m2.get "ticker" = km)
    (hkm : km.truthy = true)
    (he1 : e1.get "event_ticker" = ke) (he2 : e2.get "event_ticker" = ke)
    (hke : ke.truthy = true) :
    ((batch_upsert_markets (batch_upsert_markets tm [m1] n1).1 [m2] n2).1.filter
        (fun r => decide (r.key = km))).length = 1 ∧
    ((findRow (batch_upsert_markets (batch_upsert_markets tm [m1] n1).1
        [m2] n2).1 km).map DbRow.cols) =
      some (applyJsonb marketJsonbCols (projectMarket m2)) ∧
    ((findRow (batch_upsert_markets (batch_upsert_markets tm [m1] n1).1
        [m2] n2).1 km).map DbRow.updated_at) = some n2 ∧
    ((findRow (batch_upsert_markets (batch_upsert_markets tm [m1] n1).1
        [m2] n2).1 km).map DbRow.created_at) =
      ((findRow (batch_upsert_markets tm [m1] n1).1 km).map DbRow.created_at) ∧
    (batch_upsert_markets (batch_upsert_markets tm [m1] n1).1 [m2] n2).1.length =
      (batch_upsert_markets tm [m1] n1).1.length ∧
    ((batch_upsert_events (batch_upsert_events te [e1] n1).1 [e2] n2).1.filter
        (fun r => decide (r.key = ke))).length = 1 ∧
    ((findRow (batch_upsert_events (batch_upsert_events te [e1] n1).1
        [e2] n2).1 ke).map DbRow.cols) =
      some (applyJsonb eventJsonbCols (projectEvent e2)) ∧
    ((findRow (batch_upsert_events (batch_upsert_events te [e1] n1).1
        [e2] n2).1 ke).map DbRow.updated_at) = some n2 ∧
    ((findRow (batch_upsert_events (batch_upsert_events te [e1] n1).1
        [e2] n2).1 ke).map DbRow.created_at) =
      ((findRow (batch_upsert_events te [e1] n1).1 ke).map DbRow.created_at) ∧
    (batch_upsert_events (batch_upsert_events te [e1] n1).1 [e2] n2).1.length =
      (batch_upsert_events te [e1] n1).1.length := by
  have hb1 := batch_upsert_markets_single tm m1 n1 (by rw [hm1]; exact hkm)
  rw [hm1] at hb1
  have htm1 : (batch_upsert_markets tm [m1] n1).1 =
      upsertRow tm km (applyJsonb marketJsonbCols (projectMarket m1)) n1 := by
    rw [hb1]
  have hb2 := batch_upsert_markets_single (batch_upsert_markets tm [m1] n1).1
    m2 n2 (by rw [hm2]; exact hkm)
  rw [hm2] at hb2
  have htm2 : (batch_upsert_markets (batch_upsert_markets tm [m1] n1).1
      [m2] n2).1 =
      upsertRow (upsertRow tm km (applyJsonb marketJsonbCols (projectMarket m1)) n1)
        km (applyJsonb marketJsonbCols (projectMarket m2)) n2 := by
    rw [hb2, htm1]
  have h1nodup := upsertRow_keys_nodup tm km
    (applyJsonb marketJsonbCols (projectMarket m1)) n1 hmnd
  have hfind1 := findRow_upsert tm km
    (applyJsonb marketJsonbCols (projectMarket m1)) n1
  have hfind2 := findRow_upsert
    (upsertRow tm km (applyJsonb marketJsonbCols (projectMarket m1)) n1) km
    (applyJsonb marketJsonbCols (projectMarket m2)) n2
  have hany1 : (upsertRow tm km
      (applyJsonb marketJsonbCols (projectMarket m1)) n1).any
        (fun r => decide (r.key = km)) = true := by
    unfold findRow at hfind1
    exact List.any_eq_true.mpr ⟨_, List.mem_of_find?_eq_some hfind1, by simp⟩
  have heb1 := batch_upsert_events_single te e1 n1 (by rw [he1]; exact hke)
  rw [he1] at heb1
  have hte1 : (batch_upsert_events te [e1] n1).1 =
      upsertRow te ke (applyJsonb eventJsonbCols (projectEvent e1)) n1 := by
    rw [heb1]
  have heb2 := batch_upsert_events_single (batch_upsert_events te [e1] n1).1
    e2 n2 (by rw [he2]; exact hke)
  rw [he2] at heb2
  have hte2 : (batch_upsert_events (batch_upsert_events te [e1] n1).1
      [e2] n2).1 =
      upsertRow (upsertRow te ke (applyJsonb eventJsonbCols (projectEvent e1)) n1)
        ke (applyJsonb eventJsonbCols (projectEvent e2)) n2 := by
    rw [heb2, hte1]
  have he1nodup := upsertRow_keys_nodup te ke
    (applyJsonb eventJsonbCols (projectEvent e1)) n1 hend
  have hefind1 := findRow_upsert te ke
    (applyJsonb eventJsonbCols (projectEvent e1)) n1
  have hefind2 := findRow_upsert
    (upsertRow te ke (applyJsonb eventJsonbCols (projectEvent e1)) n1) ke
    (applyJsonb eventJsonbCols (projectEvent e2)) n2
  have heany1 : (upsertRow te ke
      (applyJsonb eventJsonbCols (projectEvent e1)) n1).any
        (fun r => decide (r.key = ke)) = true := by
    unfold findRow at hefind1
    exact List.any_eq_true.mpr ⟨_, List.mem_of_find?_eq_some hefind1, by simp⟩
  refine ⟨?_, ?_, ?_, ?_, ?_, ?_, ?_, ?_, ?_, ?_⟩
  · rw [htm2]
    exact upsertRow_count_one _ km _ n2 h1nodup
  · rw [htm2, hfind2]
    rfl
  · rw [htm2, hfind2]
    rfl
  · rw [htm2, hfind2, htm1, hfind1]
    rfl
  · rw [htm2, htm1, upsertRow_length, if_pos hany1]
  · rw [hte2]
    exact upsertRow_count_one _ ke _ n2 he1nodup
  · rw [hte2, hefind2]
    rfl
  · rw [hte2, hefind2]
    rfl
  · rw [hte2, hefind2, hte1, hefind1]
    rfl
  · rw [hte2, hte1, upsertRow_length, if_pos heany1]

/-- Witness for `upsert_idempotent_overwrite`: re-upserting the key `"T"`
(markets) and `"E"` (events) into an empty table leaves exactly one row per
key. -/
theorem upsert_idempotent_overwrite_witness :
    ((batch_upsert_markets (batch_upsert_markets [] [sampleMarket1] 10).1
        [sampleMarket2] 20).1.filter
        (fun r => decide (r.key = PyVal.str "T"))).length = 1 ∧
    ((batch_upsert_events (batch_upsert_events [] [sampleEvent1] 10).1
        [sampleEvent2] 20).1.filter
        (fun r => decide (r.key = PyVal.str "E"))).length = 1 :=
  ⟨(upsert_idempotent_overwrite [] [] sampleMarket1 sampleMarket2 sampleEvent1
      sampleEvent2 (PyVal.str "T") (PyVal.str "E") 10 20 (by simp) (by simp)
      (by decide) (by decide) (by decide) (by decide) (by decide)
      (by decide)).1,
   (upsert_idempotent_overwrite [] [] sampleMarket1 sampleMarket2 sampleEvent1
      sampleEvent2 (PyVal.str "T") (PyVal.str "E") 10 20 (by simp) (by simp)
      (by decide) (by decide) (by decide) (by decide) (by decide)
      (by decide)).2.2.2.2.2.1⟩
